import Mathlib

set_option maxRecDepth 2000

/-!
Verification of the conversion core of the RAW-To-ACTUAL renderer (src/app.py).

The Python source performs all of its conversions by sequential regex
substitution over plain strings.  We embed each conversion pass as an
executable function on `List Char` that reproduces the left-to-right,
non-overlapping, leftmost-shortest-match behaviour of the `re.sub` calls in
the source.  Fuel arguments (always instantiated with the length of the
scanned list, which bounds the number of scan steps since every step consumes
at least one character) keep the scanners structurally recursive, so that the
kernel can evaluate them on concrete inputs.
-/

/-- First split of `l` at the first occurrence of the pattern `pat`:
`some (pre, post)` with `l = pre ++ pat ++ post` and `pat` not occurring
earlier.  Models the search for the closing delimiter of a lazy
(`.*?`, with `re.DOTALL`) regex group. -/
def splitAtSeq (pat : List Char) : List Char → Option (List Char × List Char)
  | [] => none
  | c :: rest =>
    if pat.isPrefixOf (c :: rest) then some ([], (c :: rest).drop pat.length)
    else
      match splitAtSeq pat rest with
      | some (pre, post) => some (c :: pre, post)
      | none => none

/-- Like `splitAtSeq`, but fails upon reaching a newline before the pattern:
models a lazy `.*?` group *without* `re.DOTALL`, whose `.` cannot cross
a line break. -/
def splitAtSeqNoNl (pat : List Char) : List Char → Option (List Char × List Char)
  | [] => none
  | c :: rest =>
    if pat.isPrefixOf (c :: rest) then some ([], (c :: rest).drop pat.length)
    else if c == '\n' then none
    else
      match splitAtSeqNoNl pat rest with
      | some (pre, post) => some (c :: pre, post)
      | none => none

/-- `re.sub(r'\\\[(.*?)\\\]', r'$$\1$$', text, flags=re.DOTALL)`
(src/app.py line 43): every shortest-match `\[...\]` span, possibly spanning
several lines, is replaced by `$$...$$`; an unmatched `\[` is left as is and
scanning continues with the next character. -/
def subDisplayF : Nat → List Char → List Char
  | 0, l => l
  | _ + 1, [] => []
  | f + 1, c :: rest =>
    if c == '\\' && rest.head? == some '[' then
      match splitAtSeq ['\\', ']'] rest.tail with
      | some (inner, rest2) => '$' :: '$' :: (inner ++ '$' :: '$' :: subDisplayF f rest2)
      | none => c :: subDisplayF f rest
    else c :: subDisplayF f rest

/-- `re.sub(r'\\\((.*?)\\\)', r'$\1$', text)` (src/app.py line 44): every
shortest-match `\(...\)` span is replaced by `$...$`.  The call has no
`re.DOTALL` flag, so the span cannot contain a newline. -/
def subInlineF : Nat → List Char → List Char
  | 0, l => l
  | _ + 1, [] => []
  | f + 1, c :: rest =>
    if c == '\\' && rest.head? == some '(' then
      match splitAtSeqNoNl ['\\', ')'] rest.tail with
      | some (inner, rest2) => '$' :: (inner ++ '$' :: subInlineF f rest2)
      | none => c :: subInlineF f rest
    else c :: subInlineF f rest

/-- The trailing context `\n(?!\$\$)` of the environment-wrapping pattern:
the candidate `\end{env}` must be followed by a newline that is not
immediately followed by `$$`. -/
def closeOk : List Char → Bool
  | '\n' :: t => !(['$', '$'].isPrefixOf t)
  | _ => false

/-- Search for the closing `\end{env}\n(?!\$\$)` of the lazy group in
`(?<!\$\$)\n\\begin\{env\}(.*?)\\end\{env\}\n(?!\$\$)` (src/app.py line 52).
Returns `some (inner, rest)` where `inner` is the matched group content and
`rest` what follows the trailing newline; a candidate occurrence whose
trailing context fails is skipped, exactly as regex backtracking grows the
lazy group past it. -/
def findEnd (nd : List Char) : List Char → Option (List Char × List Char)
  | [] => none
  | c :: rest =>
    if nd.isPrefixOf (c :: rest) && closeOk ((c :: rest).drop nd.length) then
      some ([], (((c :: rest).drop nd.length).tail))
    else
      match findEnd nd rest with
      | some (inner, r2) => some (c :: inner, r2)
      | none => none

/-- One `re.sub(pattern, wrap_equation, text, flags=re.DOTALL)` pass of the
environment wrapper (src/app.py lines 46-53), scanning with the previous two
*input* characters (`p2`, `p1`) tracked for the `(?<!\$\$)` lookbehind.
A match `\n\begin{env}...\end{env}\n` is replaced by
`"\n$$\n" ++ match ++ "\n$$\n"`, i.e. `wrap_equation`'s
`f"\n$$\n{content}\n$$\n"` with `content = match.group(0)`. -/
def subEnvAuxF (beg nd : List Char) : Nat → Option Char → Option Char → List Char → List Char
  | 0, _, _, l => l
  | _ + 1, _, _, [] => []
  | f + 1, p2, p1, c :: rest =>
    if c == '\n' && beg.isPrefixOf rest && !(p2 == some '$' && p1 == some '$') then
      match findEnd nd (rest.drop beg.length) with
      | some (inner, rest2) =>
        ['\n', '$', '$', '\n'] ++ ('\n' :: (beg ++ inner ++ nd ++ ['\n'])) ++ ['\n', '$', '$', '\n']
          ++ subEnvAuxF beg nd f (some (nd.getLastD '\n')) (some '\n') rest2
      | none => c :: subEnvAuxF beg nd f p1 (some c) rest
    else c :: subEnvAuxF beg nd f p1 (some c) rest

/-- The literal `\begin{env}` that follows the leading newline of the
environment-wrapping pattern. -/
def begEnv (env : String) : List Char := "\\begin\x7b".data ++ env.data ++ "\x7d".data

/-- The literal `\end{env}` of the environment-wrapping pattern. -/
def endEnv (env : String) : List Char := "\\end\x7b".data ++ env.data ++ "\x7d".data

/-- One full environment-wrapping substitution pass for environment `env`. -/
def subEnv (env : String) (l : List Char) : List Char :=
  subEnvAuxF (begEnv env) (endEnv env) l.length none none l

/-- The fixed environment list of src/app.py line 50. -/
def environments : List String :=
  ["equation", "align", "aligned", "gather", "matrix", "bmatrix", "pmatrix"]

/-- `preprocess_text` (src/app.py lines 40-54): the delimiter normalizer.
Empty input short-circuits to `""`; otherwise the `\[...\]` pass, the
`\(...\)` pass and then one environment-wrapping pass per environment name
run in sequence, each over the entire current string. -/
def preprocess_text (text : String) : String :=
  if text == "" then ""
  else
    ⟨(environments.foldl (fun acc env => subEnv env acc)
        (subInlineF (subDisplayF text.data.length text.data).length
          (subDisplayF text.data.length text.data)))⟩

/-- `generate_txt` (src/app.py lines 366-367): returns the raw text as is. -/
def generate_txt (raw_text : String) : String := raw_text

/-- `generate_md` (src/app.py lines 370-371): returns the raw text as is. -/
def generate_md (raw_text : String) : String := raw_text

/-- Split a character list at every newline, like Python's per-line view of a
string under `re.MULTILINE` (`^`/`$` match at line boundaries and `.` does not
cross them). -/
def splitNl : List Char → List (List Char)
  | [] => [[]]
  | c :: rest =>
    if c == '\n' then [] :: splitNl rest
    else
      match splitNl rest with
      | l :: ls => (c :: l) :: ls
      | [] => [[c]]

/-- Re-join the lines produced by `splitNl` with newlines. -/
def joinNl : List (List Char) → List Char
  | [] => []
  | [l] => l
  | l :: ls => l ++ '\n' :: joinNl ls

/-- Apply a whole-line rewrite to every line: models one
`re.sub(r'^...$', repl, text, flags=re.MULTILINE)` pass whose pattern is
anchored on both sides. -/
def mapLines (f : List Char → List Char) (l : List Char) : List Char :=
  joinNl ((splitNl l).map f)

/-- The underline characters `{1: '=', 2: '-', 3: '~', 4: '^', 5: '"'}` of
`generate_rst.replace_header`, with the dictionary's `'"'` default. -/
def rstUnderlineChar (level : Nat) : Char :=
  if level == 1 then '='
  else if level == 2 then '-'
  else if level == 3 then '~'
  else if level == 4 then '^'
  else '"'

/-- ASCII whitespace as matched by Python's `\s` and stripped by
`str.strip()` (the converters are only ever applied to ASCII documents in
the claims below, so the non-ASCII Unicode whitespace Python would also
accept is irrelevant here). -/
def isPyWs (c : Char) : Bool :=
  c == ' ' || c == '\t' || c == '\n' || c == '\r' || c == '\x0b' || c == '\x0c'

/-- Python's `str.strip()`. -/
def pyStrip (l : List Char) : List Char :=
  ((l.dropWhile isPyWs).reverse.dropWhile isPyWs).reverse

/-- The header rewrite `re.sub(r'^(#{1,5})\s+(.+)$', replace_header, text,
flags=re.MULTILINE)` of `generate_rst` (src/app.py lines 376-385), acting on
one line.  A line matches exactly when it starts with one to five `#`
followed by a whitespace character and at least one further character
(greedy `\s+` backtracking against `.+`); the title is the stripped
remainder. -/
def rstHeaderLine (l : List Char) : List Char :=
  let hs := l.takeWhile (fun c => c == '#')
  let rest := l.dropWhile (fun c => c == '#')
  if decide (1 ≤ hs.length) && decide (hs.length ≤ 5)
      && (match rest.head? with | some c => isPyWs c | none => false)
      && decide (2 ≤ rest.length) then
    let title := pyStrip rest
    let u := List.replicate title.length (rstUnderlineChar hs.length)
    if hs.length == 1 then u ++ '\n' :: (title ++ '\n' :: u)
    else title ++ '\n' :: u
  else l

/-- Closing-backtick search for the inline-code pattern of `generate_rst`:
the content is `[^`]+`, so it must end at the first backtick, which must
not be followed by another backtick. -/
def splitTick (l : List Char) : Option (List Char × List Char) :=
  let inner := l.takeWhile (fun c => !(c == '`'))
  match l.dropWhile (fun c => !(c == '`')) with
  | '`' :: r2 => if inner.isEmpty || r2.head? == some '`' then none else some (inner, r2)
  | _ => none

/-- ``re.sub(r'(?<!`)`(?!`)([^`]+)(?<!`)`(?!`)', r'``\1``', text)``
(src/app.py line 386): single backticks not adjacent to other backticks are
doubled around their content; `prev` is the previous input character for the
opening lookbehind. -/
def rstTickAux : Nat → Option Char → List Char → List Char
  | 0, _, l => l
  | _ + 1, _, [] => []
  | f + 1, prev, c :: rest =>
    if c == '`' && !(prev == some '`') && !(rest.head? == some '`') then
      match splitTick rest with
      | some (inner, rest2) =>
        '`' :: '`' :: (inner ++ '`' :: '`' :: rstTickAux f (some '`') rest2)
      | none => c :: rstTickAux f (some c) rest
    else c :: rstTickAux f (some c) rest

/-- Shared body parser for the link/image patterns
`\[([^\]]+)\]\(([^)]+)\)` and `!\[([^\]]*)\]\(([^)]+)\)`: after the opening
bracket, the text runs to the first `]` (nonempty unless `allowEmptyText`),
then `(` and a nonempty url up to the first `)`. -/
def parseLinkBody (allowEmptyText : Bool) (l : List Char) :
    Option (List Char × List Char × List Char) :=
  let txt := l.takeWhile (fun c => !(c == ']'))
  match l.dropWhile (fun c => !(c == ']')) with
  | ']' :: '(' :: r2 =>
    if txt.isEmpty && !allowEmptyText then none
    else
      let url := r2.takeWhile (fun c => !(c == ')'))
      match r2.dropWhile (fun c => !(c == ')')) with
      | ')' :: r4 => if url.isEmpty then none else some (txt, url, r4)
      | _ => none
  | _ => none

/-- `re.sub(r'\[([^\]]+)\]\(([^)]+)\)', r'`\1 <\2>`_', text)` of
`generate_rst` (src/app.py line 387). -/
def rstLinkAux : Nat → List Char → List Char
  | 0, l => l
  | _ + 1, [] => []
  | f + 1, c :: rest =>
    if c == '[' then
      match parseLinkBody false rest with
      | some (txt, url, r4) =>
        '`' :: (txt ++ ' ' :: '<' :: (url ++ '>' :: '`' :: '_' :: rstLinkAux f r4))
      | none => c :: rstLinkAux f rest
    else c :: rstLinkAux f rest

/-- `re.sub(r'!\[([^\]]*)\]\(([^)]+)\)', replace_image, text)` of
`generate_rst` (src/app.py lines 388-392), producing the two-line
`.. image::` directive. -/
def rstImageAux : Nat → List Char → List Char
  | 0, l => l
  | _ + 1, [] => []
  | f + 1, c :: rest =>
    if c == '!' && rest.head? == some '[' then
      match parseLinkBody true rest.tail with
      | some (alt, url, r4) =>
        ".. image:: ".data ++ url ++ "\n   :alt: ".data ++ alt ++ rstImageAux f r4
      | none => c :: rstImageAux f rest
    else c :: rstImageAux f rest

/-- `re.sub(r'^---+$', '-' * 40, text, flags=re.MULTILINE)` on one line. -/
def rstDashLine (l : List Char) : List Char :=
  if decide (3 ≤ l.length) && l.all (fun c => c == '-') then List.replicate 40 '-' else l

/-- `re.sub(r'^\*\*\*+$', '-' * 40, text, flags=re.MULTILINE)` on one line. -/
def rstStarLine (l : List Char) : List Char :=
  if decide (3 ≤ l.length) && l.all (fun c => c == '*') then List.replicate 40 '-' else l

/-- `generate_rst` (src/app.py lines 374-395): the reStructuredText
converter, its six substitution passes applied in source order. -/
def generate_rst (raw_text : String) : String :=
  let t1 := mapLines rstHeaderLine raw_text.data
  let t2 := rstTickAux t1.length none t1
  let t3 := rstLinkAux t2.length t2
  let t4 := rstImageAux t3.length t3
  let t5 := mapLines rstDashLine t4
  let t6 := mapLines rstStarLine t5
  ⟨t6⟩

/-- One line of a header pass `re.sub(r'^#... (.+)$', ..., flags=re.MULTILINE)`
of `generate_latex_doc` (src/app.py lines 425-428): `hashes` is the literal
hash run, `pre`/`post` the replacement text around the captured remainder,
which must be nonempty. -/
def latexHashLine (hashes pre post : List Char) (l : List Char) : List Char :=
  if (hashes ++ [' ']).isPrefixOf l && decide (hashes.length + 1 < l.length) then
    pre ++ (l.drop (hashes.length + 1)) ++ post
  else l

/-- Lazy group of `(.+?)` followed by the literal `pat`, without `re.DOTALL`:
at least one character of content, no newline, closed by the first following
occurrence of `pat`. -/
def lazyPlusSplit (pat : List Char) : List Char → Option (List Char × List Char)
  | [] => none
  | h :: t =>
    if h == '\n' then none
    else
      match splitAtSeqNoNl pat t with
      | some (i, r) => some (h :: i, r)
      | none => none

/-- `re.sub(r'\*\*\*(.+?)\*\*\*', r'\\textbf{\\textit{\1}}', text)`
(src/app.py line 429). -/
def tripleStarAux : Nat → List Char → List Char
  | 0, l => l
  | _ + 1, [] => []
  | f + 1, c :: rest =>
    if c == '*' && rest.head? == some '*' && rest.tail.head? == some '*' then
      match lazyPlusSplit ['*', '*', '*'] rest.tail.tail with
      | some (inner, r2) =>
        "\\textbf\x7b\\textit\x7b".data ++ inner ++ '\x7d' :: '\x7d' :: tripleStarAux f r2
      | none => c :: tripleStarAux f rest
    else c :: tripleStarAux f rest

/-- `re.sub(r'\*\*(.+?)\*\*', r'\\textbf{\1}', text)` (src/app.py line 430). -/
def doubleStarAux : Nat → List Char → List Char
  | 0, l => l
  | _ + 1, [] => []
  | f + 1, c :: rest =>
    if c == '*' && rest.head? == some '*' then
      match lazyPlusSplit ['*', '*'] rest.tail with
      | some (inner, r2) =>
        "\\textbf\x7b".data ++ inner ++ '\x7d' :: doubleStarAux f r2
      | none => c :: doubleStarAux f rest
    else c :: doubleStarAux f rest

/-- Closing-star search for `(.+?)(?<!\*)\*(?!\*)`: the lazy group grows past
every `*` whose lookarounds fail; `prev` is the character before the current
candidate. -/
def starCloseScan : Char → List Char → Option (List Char × List Char)
  | _, [] => none
  | prev, c :: rest =>
    if c == '*' && !(prev == '*') && !(rest.head? == some '*') then some ([], rest)
    else if c == '\n' then none
    else
      match starCloseScan c rest with
      | some (i, r) => some (c :: i, r)
      | none => none

/-- `re.sub(r'(?<!\*)\*(?!\*)(.+?)(?<!\*)\*(?!\*)', r'\\textit{\1}', text)`
(src/app.py line 431), with `prev` the previous input character for the
opening lookbehind. -/
def singleStarAux : Nat → Option Char → List Char → List Char
  | 0, _, l => l
  | _ + 1, _, [] => []
  | f + 1, prev, c :: rest =>
    if c == '*' && !(prev == some '*') && !(rest.head? == some '*') then
      match (match rest with
             | [] => none
             | h :: t =>
               if h == '\n' then none
               else
                 match starCloseScan h t with
                 | some (i, r) => some (h :: i, r)
                 | none => none) with
      | some (inner, r2) =>
        "\\textit\x7b".data ++ inner ++ '\x7d' :: singleStarAux f (some '*') r2
      | none => c :: singleStarAux f (some c) rest
    else c :: singleStarAux f (some c) rest

/-- Closing-backtick search for the plain inline-code pattern `` `([^`]+)` ``
of `generate_latex_doc` (no lookarounds, content may span lines). -/
def splitTickSimple (l : List Char) : Option (List Char × List Char) :=
  let inner := l.takeWhile (fun c => !(c == '`'))
  match l.dropWhile (fun c => !(c == '`')) with
  | '`' :: r2 => if inner.isEmpty then none else some (inner, r2)
  | _ => none

/-- ``re.sub(r'`([^`]+)`', r'\\texttt{\1}', text)`` (src/app.py line 432). -/
def latexTickAux : Nat → List Char → List Char
  | 0, l => l
  | _ + 1, [] => []
  | f + 1, c :: rest =>
    if c == '`' then
      match splitTickSimple rest with
      | some (inner, r2) =>
        "\\texttt\x7b".data ++ inner ++ '\x7d' :: latexTickAux f r2
      | none => c :: latexTickAux f rest
    else c :: latexTickAux f rest

/-- `re.sub(r'\[([^\]]+)\]\(([^)]+)\)', r'\\href{\2}{\1}', text)`
(src/app.py line 433). -/
def latexLinkAux : Nat → List Char → List Char
  | 0, l => l
  | _ + 1, [] => []
  | f + 1, c :: rest =>
    if c == '[' then
      match parseLinkBody false rest with
      | some (txt, url, r4) =>
        "\\href\x7b".data ++ url ++ '\x7d' :: '\x7b' :: (txt ++ '\x7d' :: latexLinkAux f r4)
      | none => c :: latexLinkAux f rest
    else c :: latexLinkAux f rest

/-- `\w` of Python's `re` restricted to ASCII (letters, digits, underscore),
which covers every language tag in the claims. -/
def isWordChar (c : Char) : Bool := c.isAlpha || c.isDigit || c == '_'

/-- `re.sub(r'```(\w*)\n(.*?)```', replace_code_block, text, flags=re.DOTALL)`
(src/app.py lines 434-440): a fence, a greedy word-character language tag
that must be followed directly by a newline, and a lazy body closed by the
first later fence. -/
def codeBlockAux : Nat → List Char → List Char
  | 0, l => l
  | _ + 1, [] => []
  | f + 1, c :: rest =>
    if c == '`' && rest.head? == some '`' && rest.tail.head? == some '`' then
      let r0 := rest.tail.tail
      let lang := r0.takeWhile isWordChar
      match r0.dropWhile isWordChar with
      | '\n' :: r2 =>
        match splitAtSeq ['`', '`', '`'] r2 with
        | some (code, r3) =>
          (if lang.isEmpty then "\\begin\x7blstlisting\x7d\n".data
           else "\\begin\x7blstlisting\x7d[language=".data ++ lang ++ ']' :: ['\n'])
            ++ code ++ "\n\\end\x7blstlisting\x7d".data ++ codeBlockAux f r3
        | none => c :: codeBlockAux f rest
      | _ => c :: codeBlockAux f rest
    else c :: codeBlockAux f rest

/-- `re.sub(r'^---+$', r'\\hrulefill', text, flags=re.MULTILINE)` on one line. -/
def latexDashLine (l : List Char) : List Char :=
  if decide (3 ≤ l.length) && l.all (fun c => c == '-') then "\\hrulefill".data else l

/-- `re.sub(r'^> (.+)$', r'\\begin{quote}\n\1\n\\end{quote}', text,
flags=re.MULTILINE)` on one line. -/
def latexQuoteLine (l : List Char) : List Char :=
  if (['>'] ++ [' ']).isPrefixOf l && decide (2 < l.length) then
    "\\begin\x7bquote\x7d\n".data ++ l.drop 2 ++ "\n\\end\x7bquote\x7d".data
  else l

/-- The body substitutions of `generate_latex_doc` (src/app.py lines
425-442) in source order. -/
def latexBody (l : List Char) : List Char :=
  let t1 := mapLines (latexHashLine ['#'] "\\section\x7b".data ['\x7d']) l
  let t2 := mapLines (latexHashLine ['#', '#'] "\\subsection\x7b".data ['\x7d']) t1
  let t3 := mapLines (latexHashLine ['#', '#', '#'] "\\subsubsection\x7b".data ['\x7d']) t2
  let t4 := mapLines (latexHashLine ['#', '#', '#', '#'] "\\paragraph\x7b".data ['\x7d']) t3
  let t5 := tripleStarAux t4.length t4
  let t6 := doubleStarAux t5.length t5
  let t7 := singleStarAux t6.length none t6
  let t8 := latexTickAux t7.length t7
  let t9 := latexLinkAux t8.length t8
  let t10 := codeBlockAux t9.length t9
  let t11 := mapLines latexDashLine t10
  let t12 := mapLines latexQuoteLine t11
  t12

-- Template strings transcribed verbatim from src/app.py (braces written \x7b/\x7d).

def fullHtmlA : String :=
  "<!DOCTYPE html>\n<html lang=\"en\">\n<head>\n    <meta charset=\"utf-8\">\n    <meta name=\"viewport\" content=\"width=device-width, initial-scale=1.0"
  ++ "\">\n    <title>"

def fullHtmlB : String :=
  "</title>\n    <link rel=\"stylesheet\" href=\"https://cdn.jsdelivr.net/npm/katex@0.16.9/dist/katex.min.css\">\n    <script defer src=\"https://cdn.jsd"
  ++ "elivr.net/npm/katex@0.16.9/dist/katex.min.js\"></script>\n    <script defer src=\"https://cdn.jsdelivr.net/npm/katex@0.16.9/dist/contrib/auto-render.m"
  ++ "in.js\"></script>\n    <script src=\"https://cdn.jsdelivr.net/npm/marked/marked.min.js\"></script>\n    <link rel=\"stylesheet\" href=\"https://cdn.js"
  ++ "delivr.net/gh/highlightjs/cdn-release@11.9.0/build/styles/github.min.css\">\n    <script src=\"https://cdn.jsdelivr.net/gh/highlightjs/cdn-release@11."
  ++ "9.0/build/highlight.min.js\"></script>\n    <style>\n        body \x7b\n            font-family: -apple-system, BlinkMacSystemFont, 'Segoe UI', Roboto"
  ++ ", sans-serif;\n            max-width: 900px;\n            margin: 0 auto;\n            padding: 40px 20px;\n            line-height: 1.8;\n        \x7d"
  ++ "\n        table \x7b\n            border-collapse: collapse;\n            width: 100%;\n            margin: 20px 0;\n        \x7d\n        th, td \x7b"
  ++ "\n            border: 1px solid #ccc;\n            padding: 10px 14px;\n            text-align: left;\n        \x7d\n        pre \x7b\n            bac"
  ++ "kground-color: #f6f8fa;\n            padding: 16px;\n            border-radius: 6px;\n            overflow-x: auto;\n            border: 1px solid #e1"
  ++ "e4e8;\n        \x7d\n        code \x7b\n            font-family: 'SFMono-Regular', Consolas, 'Liberation Mono', Menlo, monospace;\n            font-si"
  ++ "ze: 0.9em;\n        \x7d\n        :not(pre) > code \x7b\n            background-color: #f0f0f0;\n            padding: 2px 6px;\n            border-rad"
  ++ "ius: 4px;\n        \x7d\n        blockquote \x7b\n            border-left: 4px solid #ccc;\n            margin: 1em 0;\n            padding: 0.5em 1em"
  ++ ";\n        \x7d\n        img \x7b max-width: 100%; height: auto; \x7d\n        .katex-display \x7b overflow-x: auto; overflow-y: hidden; padding: 10px"
  ++ " 0; \x7d\n        hr \x7b border: none; border-top: 1px solid #ccc; margin: 2em 0; \x7d\n\n        @media print \x7b\n            .no-print \x7b displ"
  ++ "ay: none !important; \x7d\n        \x7d\n        .pdf-btn \x7b\n            position: fixed;\n            top: 20px;\n            right: 20px;\n      "
  ++ "      z-index: 1000;\n            background: #333;\n            color: white;\n            border: none;\n            padding: 10px 20px;\n          "
  ++ "  border-radius: 6px;\n            font-size: 0.95em;\n            cursor: pointer;\n            font-weight: bold;\n        \x7d\n        .pdf-btn:ho"
  ++ "ver \x7b background: #555; \x7d\n        .pdf-tip \x7b\n            position: fixed;\n            top: 65px;\n            right: 20px;\n            z-"
  ++ "index: 1000;\n            background: #fffbe6;\n            padding: 8px 14px;\n            border-radius: 6px;\n            font-size: 0.82em;\n     "
  ++ "       max-width: 260px;\n            border: 1px solid #e0d080;\n        \x7d\n    </style>\n</head>\n<body>\n    <button class=\"pdf-btn no-print\" "
  ++ "onclick=\"window.print()\">🖨️ Print / Save as PDF</button>\n    <div class=\"pdf-tip no-print\">💡 Click the button, then choose <em>\"Save as PDF\"</e"
  ++ "m> in the print dialog.</div>\n\n    <div id=\"content\"></div>\n\n    <script>\n        marked.setOptions(\x7b\n            gfm: true,\n            b"
  ++ "reaks: true,\n            highlight: function(code, lang) \x7b\n                if (lang && hljs.getLanguage(lang)) \x7b\n                    try \x7b"
  ++ " return hljs.highlight(code, \x7b language: lang \x7d).value; \x7d catch (e) \x7b\x7d\n                \x7d\n                return hljs.highlightAuto"
  ++ "(code).value;\n            \x7d\n        \x7d);\n        document.getElementById('content').innerHTML = marked.parse("

def fullHtmlC : String :=
  ");\n        document.addEventListener(\"DOMContentLoaded\", function() \x7b\n            renderMathInElement(document.getElementById('content'), \x7b\n"
  ++ "                delimiters: [\n                    \x7b left: \"$$\", right: \"$$\", display: true \x7d,\n                    \x7b left: \"$\", right:"
  ++ " \"$\", display: false \x7d,\n                    \x7b left: \"\\\\(\", right: \"\\\\)\", display: false \x7d,\n                    \x7b left: \"\\\\["
  ++ "\", right: \"\\\\]\", display: true \x7d\n                ],\n                throwOnError: false\n            \x7d);\n            document.querySelec"
  ++ "torAll('pre code').forEach((block) => \x7b\n                hljs.highlightElement(block);\n            \x7d);\n        \x7d);\n    </script>\n</body>\n"
  ++ "</html>"

def richHtmlA : String :=
  "<!DOCTYPE html>\n<html>\n<head>\n<meta charset=\"utf-8\">\n<link rel=\"stylesheet\" href=\"https://cdn.jsdelivr.net/npm/katex@0.16.9/dist/katex.min.cs"
  ++ "s\">\n<script defer src=\"https://cdn.jsdelivr.net/npm/katex@0.16.9/dist/katex.min.js\"></script>\n<script defer src=\"https://cdn.jsdelivr.net/npm/ka"
  ++ "tex@0.16.9/dist/contrib/auto-render.min.js\"></script>\n<script src=\"https://cdn.jsdelivr.net/npm/marked/marked.min.js\"></script>\n<link rel=\"style"
  ++ "sheet\" href=\"https://cdn.jsdelivr.net/gh/highlightjs/cdn-release@11.9.0/build/styles/github.min.css\">\n<script src=\"https://cdn.jsdelivr.net/gh/hi"
  ++ "ghlightjs/cdn-release@11.9.0/build/highlight.min.js\"></script>\n<style>\nbody \x7b font-family: -apple-system, BlinkMacSystemFont, 'Segoe UI', Roboto"
  ++ ", sans-serif; line-height: 1.7; padding: 20px; max-width: 800px; \x7d\ntable \x7b border-collapse: collapse; width: 100%; margin: 15px 0; \x7d\nth, td"
  ++ " \x7b border: 1px solid #ccc; padding: 10px 14px; \x7d\nblockquote \x7b border-left: 4px solid #ccc; padding: 8px 16px; margin: 10px 0; \x7d\npre \x7b"
  ++ " background: #f6f8fa; padding: 14px; border-radius: 6px; overflow-x: auto; border: 1px solid #e1e4e8; \x7d\ncode \x7b font-family: Consolas, monospace"
  ++ "; font-size: 0.9em; \x7d\n:not(pre) > code \x7b background: #f0f0f0; padding: 2px 5px; border-radius: 3px; \x7d\n.katex-display \x7b overflow-x: auto;"
  ++ " \x7d\n</style>\n</head>\n<body>\n<div id=\"content\"></div>\n<script>\nmarked.setOptions(\x7b gfm: true, breaks: true, highlight: function(code, lang"
  ++ ") \x7b\n    if (lang && hljs.getLanguage(lang)) \x7b try \x7b return hljs.highlight(code, \x7b language: lang \x7d).value; \x7d catch(e) \x7b\x7d \x7d"
  ++ "\n    return hljs.highlightAuto(code).value;\n\x7d \x7d);\ndocument.getElementById('content').innerHTML = marked.parse("

def richHtmlB : String :=
  ");\ndocument.addEventListener(\"DOMContentLoaded\", function() \x7b\n    renderMathInElement(document.getElementById('content'), \x7b\n        delimit"
  ++ "ers: [\n            \x7b left: \"$$\", right: \"$$\", display: true \x7d,\n            \x7b left: \"$\", right: \"$\", display: false \x7d\n        ],"
  ++ "\n        throwOnError: false\n    \x7d);\n    document.querySelectorAll('pre code').forEach((block) => \x7b hljs.highlightElement(block); \x7d);\n\x7d"
  ++ ");\n</script>\n</body>\n</html>"

def latexPreamble : String :=
  "\\documentclass[11pt,a4paper]\x7barticle\x7d\n\\usepackage[utf8]\x7binputenc\x7d\n\\usepackage[T1]\x7bfontenc\x7d\n\\usepackage\x7bamsmath,amssymb,ams"
  ++ "fonts\x7d\n\\usepackage\x7bgraphicx\x7d\n\\usepackage\x7bhyperref\x7d\n\\usepackage\x7blistings\x7d\n\\usepackage\x7bxcolor\x7d\n\\usepackage\x7bbookt"
  ++ "abs\x7d\n\\usepackage[margin=1in]\x7bgeometry\x7d\n\n\\lstset\x7b\n    basicstyle=\\ttfamily\\small,\n    breaklines=true,\n    frame=single,\n    bac"
  ++ "kgroundcolor=\\color\x7bgray!10\x7d,\n    keywordstyle=\\color\x7bblue\x7d,\n    commentstyle=\\color\x7bgreen!60!black\x7d,\n    stringstyle=\\color\x7b"
  ++ "red\x7d\n\x7d\n\n\\begin\x7bdocument\x7d\n"

def latexPostamble : String :=
  "\n\\end\x7bdocument\x7d"

/-- Models CPython's `repr` escaping of one character inside quote
character `q`; faithful for printable-ASCII content plus newline, tab and
carriage return, which covers every string the embedded converters pass to
`repr`. -/
def pyReprChar (q : Char) (c : Char) : List Char :=
  if c == '\\' then ['\\', '\\']
  else if c == q then ['\\', q]
  else if c == '\n' then ['\\', 'n']
  else if c == '\r' then ['\\', 'r']
  else if c == '\t' then ['\\', 't']
  else [c]

/-- Models CPython's `repr` on strings: single-quoted, unless the string
contains a single quote but no double quote, in which case double-quoted. -/
def pyRepr (s : String) : String :=
  let q : Char := if s.data.contains '\'' && !(s.data.contains '"') then '"' else '\''
  ⟨q :: ((s.data.map (pyReprChar q)).flatten ++ [q])⟩

/-- `generate_latex_doc` (src/app.py lines 398-443): fixed preamble, the
substituted body, fixed postamble. -/
def generate_latex_doc (raw_text : String) : String :=
  latexPreamble ++ (⟨latexBody raw_text.data⟩ : String) ++ latexPostamble

/-- `generate_full_html` (src/app.py lines 59-183): the f-string template
with `title` interpolated into `<title>` and `repr(rendered_text)`
interpolated into the `marked.parse(...)` call; no server-side Markdown
conversion happens. -/
def generate_full_html (rendered_text : String)
    (title : String := "Exported Document") : String :=
  fullHtmlA ++ title ++ fullHtmlB ++ pyRepr rendered_text ++ fullHtmlC

/-- `generate_rich_html_for_copy` (src/app.py lines 319-363): the clipboard
HTML template with `repr(rendered_text)` interpolated into the
`marked.parse(...)` call. -/
def generate_rich_html_for_copy (rendered_text : String) : String :=
  richHtmlA ++ pyRepr rendered_text ++ richHtmlB

/-- Whether `pat` occurs as a contiguous run in the list. -/
def infixSearch (pat : List Char) : List Char → Bool
  | [] => pat.isEmpty
  | c :: rest => pat.isPrefixOf (c :: rest) || infixSearch pat rest

/-- Whether `pat` occurs as a substring of `s`. -/
def strContains (s pat : String) : Bool := infixSearch pat.data s.data

/-- Whether one line matches the full table-row pattern `^\|(.+\|)+$` of the
statistics code (src/app.py line 1071).  Since `.` matches `|` itself, a
line matches `(.+\|)+` after its leading `|` exactly when what follows the
leading `|` has length at least two and ends in `|` (a single `(.+\|)` block
covers it); the pattern therefore accepts precisely the lines that start
with `|`, end with `|`, and have length at least three. -/
def pipeRowLine : List Char → Bool
  | '|' :: rest => decide (2 ≤ rest.length) && (rest.getLast? == some '|')
  | _ => false

/-- `len(re.findall(r'^\|(.+\|)+$', raw, re.MULTILINE))` (src/app.py line
1071): the `tableRows` statistic, one anchored match per qualifying line. -/
def tables (raw : String) : Nat := (splitNl raw.data).countP pipeRowLine

/-- Whether the two-character sequence `a` `b` occurs somewhere in the list;
this is exactly the trigger condition of the delimiter scanners. -/
def hasSeq2 (a b : Char) : List Char → Bool
  | [] => false
  | c :: rest => (c == a && rest.head? == some b) || hasSeq2 a b rest

theorem hasSeq2_eq_false_of_not_mem (a b : Char) :
    ∀ l : List Char, a ∉ l → hasSeq2 a b l = false := by
  intro l
  induction l with
  | nil => intro _; rfl
  | cons c rest ih =>
    intro h
    have h1 : a ≠ c := fun e => h (e ▸ List.mem_cons_self c rest)
    have h2 : a ∉ rest := fun m => h (List.mem_cons_of_mem c m)
    have hca : (c == a) = false := beq_eq_false_iff_ne.mpr (Ne.symm h1)
    simp [hasSeq2, ih h2, hca]

theorem subDisplayF_nil : ∀ f, subDisplayF f [] = [] := by
  intro f; cases f <;> rfl

theorem subInlineF_nil : ∀ f, subInlineF f [] = [] := by
  intro f; cases f <;> rfl

theorem subDisplayF_eq_self :
    ∀ l : List Char, hasSeq2 '\\' '[' l = false → ∀ fuel, subDisplayF fuel l = l := by
  intro l
  induction l with
  | nil => intro _ fuel; exact subDisplayF_nil fuel
  | cons c rest ih =>
    intro h fuel
    simp only [hasSeq2, Bool.or_eq_false_iff] at h
    cases fuel with
    | zero => rfl
    | succ f =>
      simp only [subDisplayF]
      rw [if_neg (by simp [h.1])]
      rw [ih h.2 f]

theorem subInlineF_eq_self :
    ∀ l : List Char, hasSeq2 '\\' '(' l = false → ∀ fuel, subInlineF fuel l = l := by
  intro l
  induction l with
  | nil => intro _ fuel; exact subInlineF_nil fuel
  | cons c rest ih =>
    intro h fuel
    simp only [hasSeq2, Bool.or_eq_false_iff] at h
    cases fuel with
    | zero => rfl
    | succ f =>
      simp only [subInlineF]
      rw [if_neg (by simp [h.1])]
      rw [ih h.2 f]

theorem splitAtSeq_cons_pat (k : Char) (tl : List Char) :
    splitAtSeq ['\\', k] ('\\' :: k :: tl) = some ([], tl) := by
  simp [splitAtSeq, List.isPrefixOf]

theorem splitAtSeq_of_no_bs (k : Char) :
    ∀ il tl : List Char, '\\' ∉ il →
      splitAtSeq ['\\', k] (il ++ '\\' :: k :: tl) = some (il, tl) := by
  intro il
  induction il with
  | nil => intro tl _; simpa using splitAtSeq_cons_pat k tl
  | cons c il2 ih =>
    intro tl h
    have hc : c ≠ '\\' := fun e => h (e ▸ List.mem_cons_self c il2)
    have h2 : '\\' ∉ il2 := fun m => h (List.mem_cons_of_mem c m)
    show splitAtSeq ['\\', k] (c :: (il2 ++ '\\' :: k :: tl)) = some (c :: il2, tl)
    simp only [splitAtSeq]
    rw [if_neg (by simp [List.isPrefixOf, beq_eq_false_iff_ne.mpr (Ne.symm hc)])]
    rw [ih tl h2]

theorem splitAtSeqNoNl_cons_pat (k : Char) (tl : List Char) :
    splitAtSeqNoNl ['\\', k] ('\\' :: k :: tl) = some ([], tl) := by
  simp [splitAtSeqNoNl, List.isPrefixOf]

theorem splitAtSeqNoNl_of_no_bs (k : Char) :
    ∀ il tl : List Char, '\\' ∉ il → '\n' ∉ il →
      splitAtSeqNoNl ['\\', k] (il ++ '\\' :: k :: tl) = some (il, tl) := by
  intro il
  induction il with
  | nil => intro tl _ _; simpa using splitAtSeqNoNl_cons_pat k tl
  | cons c il2 ih =>
    intro tl h hn
    have hc : c ≠ '\\' := fun e => h (e ▸ List.mem_cons_self c il2)
    have hcn : c ≠ '\n' := fun e => hn (e ▸ List.mem_cons_self c il2)
    have h2 : '\\' ∉ il2 := fun m => h (List.mem_cons_of_mem c m)
    have hn2 : '\n' ∉ il2 := fun m => hn (List.mem_cons_of_mem c m)
    show splitAtSeqNoNl ['\\', k] (c :: (il2 ++ '\\' :: k :: tl)) = some (c :: il2, tl)
    simp only [splitAtSeqNoNl]
    rw [if_neg (by simp [List.isPrefixOf, beq_eq_false_iff_ne.mpr (Ne.symm hc)])]
    rw [if_neg (by simp [hcn])]
    rw [ih tl h2 hn2]

theorem subEnvAuxF_eq_self (beg nd : List Char) (hb : beg.head? = some '\\') :
    ∀ l : List Char, '\\' ∉ l → ∀ fuel p2 p1, subEnvAuxF beg nd fuel p2 p1 l = l := by
  intro l
  induction l with
  | nil => intro _ fuel p2 p1; cases fuel <;> rfl
  | cons c rest ih =>
    intro h fuel p2 p1
    have h2 : '\\' ∉ rest := fun m => h (List.mem_cons_of_mem c m)
    have hpre : beg.isPrefixOf rest = false := by
      cases beg with
      | nil => simp at hb
      | cons b bt =>
        have hbb : b = '\\' := by simpa using hb
        cases rest with
        | nil => rfl
        | cons y r =>
          have hy : y ≠ '\\' := fun e => h2 (e ▸ List.mem_cons_self y r)
          have hby : (b == y) = false := by
            rw [hbb]; exact beq_eq_false_iff_ne.mpr (Ne.symm hy)
          simp [List.isPrefixOf, hby]
    cases fuel with
    | zero => rfl
    | succ f =>
      simp only [subEnvAuxF]
      rw [if_neg (by simp [hpre])]
      rw [ih h2 f p1 (some c)]

theorem begEnv_head (env : String) : (begEnv env).head? = some '\\' := rfl

theorem foldl_subEnv_eq_self :
    ∀ (envs : List String) (l : List Char), '\\' ∉ l →
      envs.foldl (fun acc env => subEnv env acc) l = l := by
  intro envs
  induction envs with
  | nil => intro l _; rfl
  | cons e es ih =>
    intro l h
    have he : subEnv e l = l :=
      subEnvAuxF_eq_self (begEnv e) (endEnv e) (begEnv_head e) l h l.length none none
    simp only [List.foldl_cons]
    rw [he]
    exact ih l h

theorem subDisplayF_wrap (il : List Char) (h : '\\' ∉ il) (f : Nat) :
    subDisplayF (f + 1) ('\\' :: '[' :: (il ++ '\\' :: ']' :: []))
      = '$' :: '$' :: (il ++ ['$', '$']) := by
  have hsplit := splitAtSeq_of_no_bs ']' il [] h
  simp only [subDisplayF]
  rw [if_pos (by simp)]
  simp only [List.tail_cons]
  rw [hsplit]
  show '$' :: '$' :: (il ++ '$' :: '$' :: subDisplayF f []) = '$' :: '$' :: (il ++ ['$', '$'])
  rw [subDisplayF_nil]

theorem subInlineF_wrap (il : List Char) (h : '\\' ∉ il) (hn : '\n' ∉ il) (f : Nat) :
    subInlineF (f + 1) ('\\' :: '(' :: (il ++ '\\' :: ')' :: []))
      = '$' :: (il ++ ['$']) := by
  have hsplit := splitAtSeqNoNl_of_no_bs ')' il [] h hn
  simp only [subInlineF]
  rw [if_pos (by simp)]
  simp only [List.tail_cons]
  rw [hsplit]
  show '$' :: (il ++ '$' :: subInlineF f []) = '$' :: (il ++ ['$'])
  rw [subInlineF_nil]

theorem hasSeq2_bs_append (b : Char) :
    ∀ il : List Char, '\\' ∉ il → (b == '[') = false → (b == '\\') = false →
      hasSeq2 '\\' '[' (il ++ '\\' :: b :: []) = false := by
  intro il
  induction il with
  | nil =>
    intro _ hb hb2
    simp [hasSeq2, hb, hb2]
  | cons c il2 ih =>
    intro h hb hb2
    have hc : c ≠ '\\' := fun e => h (e ▸ List.mem_cons_self c il2)
    have h2 : '\\' ∉ il2 := fun m => h (List.mem_cons_of_mem c m)
    show hasSeq2 '\\' '[' (c :: (il2 ++ '\\' :: b :: [])) = false
    simp [hasSeq2, beq_eq_false_iff_ne.mpr hc, ih h2 hb hb2]

theorem isPrefixOf_append_ext :
    ∀ (pat x y : List Char), pat.isPrefixOf x = true → pat.isPrefixOf (x ++ y) = true := by
  intro pat
  induction pat with
  | nil => intro x y _; simp [List.isPrefixOf]
  | cons p ps ih =>
    intro x y h
    cases x with
    | nil => simp [List.isPrefixOf] at h
    | cons c x2 =>
      simp only [List.isPrefixOf, Bool.and_eq_true] at h
      simp only [List.cons_append, List.isPrefixOf, Bool.and_eq_true]
      exact ⟨h.1, ih x2 y h.2⟩

theorem isPrefixOf_take_of_isPrefixOf :
    ∀ (pat x b : List Char) (k : Nat), pat.length ≤ x.length + k →
      pat.isPrefixOf (x ++ b) = true → pat.isPrefixOf (x ++ b.take k) = true := by
  intro pat
  induction pat with
  | nil => intro x b k _ _; simp [List.isPrefixOf]
  | cons p ps ih =>
    intro x b k hlen h
    cases x with
    | nil =>
      cases b with
      | nil => simp [List.isPrefixOf] at h
      | cons y b2 =>
        cases k with
        | zero => simp at hlen
        | succ k2 =>
          simp only [List.nil_append, List.take, List.isPrefixOf, Bool.and_eq_true] at h ⊢
          refine ⟨h.1, ?_⟩
          have := ih [] b2 k2 (by simpa using hlen) (by simpa using h.2)
          simpa using this
    | cons c x2 =>
      simp only [List.cons_append, List.isPrefixOf, Bool.and_eq_true] at h ⊢
      refine ⟨h.1, ih x2 b k (by simp at hlen; omega) h.2⟩

theorem infixSearch_append_left (pat : List Char) :
    ∀ (a b : List Char), infixSearch pat b = true → infixSearch pat (a ++ b) = true := by
  intro a
  induction a with
  | nil => intro b h; simpa using h
  | cons c a2 ih =>
    intro b h
    show infixSearch pat (c :: (a2 ++ b)) = true
    simp only [infixSearch, Bool.or_eq_true]
    exact Or.inr (ih b h)

theorem infixSearch_append_right (pat : List Char) :
    ∀ (x y : List Char), infixSearch pat x = true → infixSearch pat (x ++ y) = true := by
  intro x
  induction x with
  | nil =>
    intro y h
    have hp : pat = [] := by
      cases pat with
      | nil => rfl
      | cons p ps => simp [infixSearch, List.isEmpty] at h
    subst hp
    cases y with
    | nil => rfl
    | cons c rest => simp [infixSearch, List.isPrefixOf]
  | cons c x2 ih =>
    intro y h
    simp only [infixSearch, Bool.or_eq_true] at h
    show infixSearch pat (c :: (x2 ++ y)) = true
    simp only [infixSearch, Bool.or_eq_true]
    cases h with
    | inl h1 =>
      exact Or.inl (by simpa using isPrefixOf_append_ext pat (c :: x2) y h1)
    | inr h2 =>
      exact Or.inr (ih y h2)

theorem infixSearch_take_true (pat a b : List Char) (m : Nat)
    (h : infixSearch pat (a ++ b.take m) = true) :
    infixSearch pat (a ++ b) = true := by
  rw [← List.take_append_drop m b, ← List.append_assoc]
  exact infixSearch_append_right pat (a ++ b.take m) (b.drop m) h

theorem infixSearch_append2_false (pat : List Char) :
    ∀ (a b : List Char),
      infixSearch pat (a ++ b.take (pat.length - 1)) = false →
      infixSearch pat b = false →
      infixSearch pat (a ++ b) = false := by
  intro a
  induction a with
  | nil => intro b _ hb; simpa using hb
  | cons c a2 ih =>
    intro b ha hb
    have ha2 : (pat.isPrefixOf (c :: (a2 ++ b.take (pat.length - 1))) = false)
        ∧ infixSearch pat (a2 ++ b.take (pat.length - 1)) = false := by
      have := ha
      simp only [List.cons_append, infixSearch, Bool.or_eq_false_iff] at this
      exact this
    show infixSearch pat (c :: (a2 ++ b)) = false
    simp only [infixSearch, Bool.or_eq_false_iff]
    constructor
    · cases hpre : pat.isPrefixOf (c :: (a2 ++ b)) with
      | false => rfl
      | true =>
        exfalso
        have hlen : pat.length ≤ (c :: a2).length + (pat.length - 1) := by
          simp [List.length_cons]
          omega
        have htk := isPrefixOf_take_of_isPrefixOf pat (c :: a2) b (pat.length - 1) hlen
          (by simpa using hpre)
        rw [show ((c :: a2) ++ b.take (pat.length - 1))
            = c :: (a2 ++ b.take (pat.length - 1)) from rfl] at htk
        rw [htk] at ha2
        exact Bool.noConfusion ha2.1
    · exact ih b ha2.2 hb

/-!
## Claims

One theorem per claim of the specification, with witnesses for the theorems
that carry hypotheses and counterexamples for the claims the code refutes.
-/

/-- C1 (counterexample): the claim states that `preprocess_text` rewrites the
span `\[x^2\]` to `"\n$$\nx^2\n$$\n"`; the code's replacement template is
`$$\1$$` without any newlines, so the actual output is `"$$x^2$$"`. -/
theorem display_math_newline_claim_false :
    preprocess_text "\\[x^2\\]" ≠ "\n$$\nx^2\n$$\n" := by decide

/-- C1 (amended): `preprocess_text` replaces each shortest-match `\[...\]`
span by `$$` content `$$` with no surrounding newlines (shown here for any
inner content free of backslashes, hence of nested delimiters), and replaces
`\(a+b\)` by `$a+b$`; in particular `\[x^2\]` becomes `$$x^2$$`. -/
theorem display_math_dollar_wrap (inner : String) (h : '\\' ∉ inner.data) :
    preprocess_text ("\\[" ++ inner ++ "\\]") = "$$" ++ inner ++ "$$" ∧
    preprocess_text "\\(a+b\\)" = "$a+b$" := by
  refine ⟨?_, by decide⟩
  have hd : ("\\[" ++ inner ++ "\\]").data
      = '\\' :: '[' :: (inner.data ++ '\\' :: ']' :: []) := by
    simp [String.data_append]
  have hne : ("\\[" ++ inner ++ "\\]") ≠ "" := by
    intro h0
    have h0' := congrArg String.data h0
    rw [hd] at h0'
    simp at h0'
  unfold preprocess_text
  rw [if_neg (by simp [hne])]
  rw [hd]
  have hlen : ('\\' :: '[' :: (inner.data ++ '\\' :: ']' :: [])).length
      = (inner.data.length + 3) + 1 := by
    simp only [List.length_cons, List.length_append, List.length_nil]
  rw [hlen]
  rw [subDisplayF_wrap inner.data h (inner.data.length + 3)]
  have hmem : '\\' ∉ '$' :: '$' :: (inner.data ++ ['$', '$']) := by
    simp [List.mem_cons, List.mem_append, h]
  rw [subInlineF_eq_self _ (hasSeq2_eq_false_of_not_mem '\\' '(' _ hmem) _]
  rw [foldl_subEnv_eq_self environments _ hmem]
  apply String.ext
  simp [String.data_append]

/-- C1 (witness): the amended theorem applied at `inner = "x^2"`. -/
theorem display_math_dollar_wrap_witness :
    preprocess_text ("\\[" ++ "x^2" ++ "\\]") = "$$" ++ "x^2" ++ "$$" ∧
    preprocess_text "\\(a+b\\)" = "$a+b$" :=
  display_math_dollar_wrap "x^2" (by decide)

/-- C2 (counterexample): the claim states that the plain-text converter
strips emphasis, backtick and dollar markers; on the claim's own example the
output still contains `*`, a backtick and `$`, because `generate_txt`
returns its input unchanged. -/
theorem txt_strip_claim_false :
    (generate_txt "**bold** and `code` and $$x^2$$").data.contains '*' = true ∧
    (generate_txt "**bold** and `code` and $$x^2$$").data.contains '`' = true ∧
    (generate_txt "**bold** and `code` and $$x^2$$").data.contains '$' = true := by
  exact ⟨by decide, by decide, by decide⟩

/-- C2 (amended): `generate_txt` performs no stripping at all: it is the
identity on its input (src/app.py lines 366-367, and the UI description
"Plain text file with raw content as-is" at line 1023). -/
theorem txt_identity (raw : String) : generate_txt raw = raw := rfl

/-- C3 (code bug): `preprocess_text` is not idempotent.  Wrapping an
environment inserts newlines between the new `$$` and the block, so on a
second run the `(?<!\$\$)`/`(?!\$\$)` lookarounds (whose evident purpose is
to prevent re-wrapping) see a newline rather than `$$`, and the block is
wrapped again.  The first conjunct shows the first application, the second
that a second application changes the result again. -/
theorem normalize_rewraps_wrapped_environment :
    preprocess_text "\n\\begin\x7bequation\x7dE\\end\x7bequation\x7d\n"
      = "\n$$\n\n\\begin\x7bequation\x7dE\\end\x7bequation\x7d\n\n$$\n" ∧
    preprocess_text (preprocess_text "\n\\begin\x7bequation\x7dE\\end\x7bequation\x7d\n")
      ≠ preprocess_text "\n\\begin\x7bequation\x7dE\\end\x7bequation\x7d\n" := by
  exact ⟨by decide, by decide⟩

/-- C4 (counterexample): the claim states the HTML converter's output for
`"# Title"` contains `<h1>Title</h1>`; it does not — the converter only
embeds the raw Markdown in a page that converts it client-side. -/
theorem html_h1_claim_false :
    strContains (generate_full_html "# Title") "<h1>Title</h1>" = false := by
  have hR : pyRepr "# Title" = "'# Title'" := by decide
  show infixSearch "<h1>Title</h1>".data (generate_full_html "# Title").data = false
  simp only [generate_full_html, fullHtmlA, fullHtmlB, fullHtmlC, hR,
    String.data_append, List.append_assoc]
  repeat (refine infixSearch_append2_false _ _ _ (by decide) ?_)
  decide

/-- C4 (amended): for the input `"# Title"` the reStructuredText converter
yields `=`-overline, `Title`, `=`-underline of the title's length, and the
LaTeX converter's output contains `\section{Title}`; the HTML converters do
not emit `<h1>Title</h1>` but embed the source for client-side rendering,
their output containing `marked.parse('# Title')`. -/
theorem header_conversion_rst_latex_html :
    generate_rst "# Title" = "=====\nTitle\n=====" ∧
    strContains (generate_latex_doc "# Title") "\\section\x7bTitle\x7d" = true ∧
    strContains (generate_full_html "# Title") "marked.parse('# Title')" = true ∧
    strContains (generate_rich_html_for_copy "# Title") "marked.parse('# Title')" = true := by
  refine ⟨by decide, ?_, ?_, ?_⟩
  · have hB : latexBody "# Title".data = "\\section\x7bTitle\x7d".data := by decide
    show infixSearch "\\section\x7bTitle\x7d".data (generate_latex_doc "# Title").data = true
    simp only [generate_latex_doc, latexPreamble, latexPostamble, hB,
      String.data_append, List.append_assoc]
    repeat (first
      | exact infixSearch_take_true _ _ _ 40 (by decide)
      | refine infixSearch_append_left _ _ _ ?_)
  · have hR : pyRepr "# Title" = "'# Title'" := by decide
    show infixSearch "marked.parse('# Title')".data (generate_full_html "# Title").data = true
    simp only [generate_full_html, fullHtmlA, fullHtmlB, fullHtmlC, hR,
      String.data_append, List.append_assoc]
    repeat (first
      | exact infixSearch_take_true _ _ _ 40 (by decide)
      | refine infixSearch_append_left _ _ _ ?_)
  · have hR : pyRepr "# Title" = "'# Title'" := by decide
    show infixSearch "marked.parse('# Title')".data
      (generate_rich_html_for_copy "# Title").data = true
    simp only [generate_rich_html_for_copy, richHtmlA, richHtmlB, hR,
      String.data_append, List.append_assoc]
    repeat (first
      | exact infixSearch_take_true _ _ _ 40 (by decide)
      | refine infixSearch_append_left _ _ _ ?_)

/-- C5 (counterexample): the claim states that every converter except the
LaTeX one maps the empty string to the empty string; the rich-HTML document
converter instead returns the whole fixed page template. -/
theorem empty_input_html_claim_false : generate_full_html "" ≠ "" := by
  intro h
  have h2 : (generate_full_html "").data.isEmpty = "".data.isEmpty :=
    congrArg (fun s => s.data.isEmpty) h
  rw [show ((generate_full_html "").data.isEmpty) = false from rfl] at h2
  exact Bool.noConfusion h2

/-- C5 (amended): on the empty string the normalizer and the plain-text,
Markdown and reStructuredText converters return the empty string, and the
LaTeX converter returns exactly its preamble followed by its postamble; but
the two HTML document converters return their full non-empty page
templates. -/
theorem empty_input_behavior :
    preprocess_text "" = "" ∧
    generate_txt "" = "" ∧
    generate_md "" = "" ∧
    generate_rst "" = "" ∧
    generate_latex_doc "" = latexPreamble ++ latexPostamble ∧
    generate_rich_html_for_copy "" ≠ "" := by
  refine ⟨by decide, by decide, by decide, by decide, by decide, ?_⟩
  intro h
  have h2 : (generate_rich_html_for_copy "").data.isEmpty = "".data.isEmpty :=
    congrArg (fun s => s.data.isEmpty) h
  rw [show ((generate_rich_html_for_copy "").data.isEmpty) = false from rfl] at h2
  exact Bool.noConfusion h2

/-- C6 (counterexample): the claim states that `![alt](url)` with non-empty
alt text becomes the two-line `.. image::` directive; in fact the link rule
of `generate_rst` runs first (line 387 before line 392) and consumes
`[alt](url)`, leaving a stray `!` before an inline link. -/
theorem rst_image_alt_claim_false :
    generate_rst "![alt](url)" = "!`alt <url>`_" ∧
    generate_rst "![alt](url)" ≠ ".. image:: url\n   :alt: alt" := by
  exact ⟨by decide, by decide⟩

/-- C6 (amended): only an image reference with *empty* alt text reaches the
image rule and becomes the two-line directive; a non-empty alt is captured
by the earlier link rule, which produces `` !`alt <url>`_ ``. -/
theorem rst_image_conversion :
    generate_rst "![](url)" = ".. image:: url\n   :alt: " ∧
    generate_rst "![alt](url)" = "!`alt <url>`_" := by
  exact ⟨by decide, by decide⟩

/-- C7 (counterexample): the claim states multi-line `\(...\)` spans are
converted like single-line ones; the `re.sub` call has no `re.DOTALL` flag,
so a span containing a newline is left completely unchanged. -/
theorem inline_math_multiline_claim_false :
    preprocess_text "\\(a\nb\\)" = "\\(a\nb\\)" ∧
    preprocess_text "\\(a\nb\\)" ≠ "$a\nb$" := by
  exact ⟨by decide, by decide⟩

/-- C7 (amended): `preprocess_text` replaces a `\(...\)` span by `$...$`
only when its content contains no newline (shown for any content free of
backslashes and newlines); a span whose content has a newline is left
unchanged. -/
theorem inline_math_single_line (inner : String)
    (h : '\\' ∉ inner.data) (hn : '\n' ∉ inner.data) :
    preprocess_text ("\\(" ++ inner ++ "\\)") = "$" ++ inner ++ "$" ∧
    preprocess_text "\\(a\nb\\)" = "\\(a\nb\\)" := by
  refine ⟨?_, by decide⟩
  have hd : ("\\(" ++ inner ++ "\\)").data
      = '\\' :: '(' :: (inner.data ++ '\\' :: ')' :: []) := by
    simp [String.data_append]
  have hne : ("\\(" ++ inner ++ "\\)") ≠ "" := by
    intro h0
    have h0' := congrArg String.data h0
    rw [hd] at h0'
    simp at h0'
  unfold preprocess_text
  rw [if_neg (by simp [hne])]
  rw [hd]
  have hseq : hasSeq2 '\\' '[' ('\\' :: '(' :: (inner.data ++ '\\' :: ')' :: [])) = false := by
    simp only [hasSeq2]
    rw [hasSeq2_bs_append ')' inner.data h (by decide) (by decide)]
    simp
  rw [subDisplayF_eq_self _ hseq _]
  have hlen : ('\\' :: '(' :: (inner.data ++ '\\' :: ')' :: [])).length
      = (inner.data.length + 3) + 1 := by
    simp only [List.length_cons, List.length_append, List.length_nil]
  rw [hlen]
  rw [subInlineF_wrap inner.data h hn (inner.data.length + 3)]
  have hmem : '\\' ∉ '$' :: (inner.data ++ ['$']) := by
    simp [List.mem_cons, List.mem_append, h]
  rw [foldl_subEnv_eq_self environments _ hmem]
  apply String.ext
  simp [String.data_append]

/-- C7 (witness): the amended theorem applied at `inner = "a+b"`. -/
theorem inline_math_single_line_witness :
    preprocess_text ("\\(" ++ "a+b" ++ "\\)") = "$" ++ "a+b" ++ "$" ∧
    preprocess_text "\\(a\nb\\)" = "\\(a\nb\\)" :=
  inline_math_single_line "a+b" (by decide) (by decide)

/-- C8 (counterexample): the claim states the `tableRows` statistic counts 2
for a 2-column GFM table of header, separator and one data row; for the
pipe-wrapped form of exactly such a table the separator line `|---|---|`
also matches `^\|(.+\|)+$`, so the count is 3. -/
theorem table_rows_claim_false :
    tables "|A|B|\n|---|---|\n|1|2|" = 3 ∧
    tables "|A|B|\n|---|---|\n|1|2|" ≠ 2 := by
  exact ⟨by decide, by decide⟩

/-- C8 (amended): the `tableRows` statistic counts every line that starts
and ends with a pipe (length at least three), including the dash separator
line: the pipe-wrapped 3-line table counts 3, and the same table written
without outer pipes matches no line at all and counts 0. -/
theorem table_rows_counts_all_pipe_lines :
    tables "|A|B|\n|---|---|\n|1|2|" = 3 ∧
    tables "A | B\n---|---\n1 | 2" = 0 := by
  exact ⟨by decide, by decide⟩

/-- C9: every conversion function of the core is a total function on
strings: for every input, each returns a result (the embedded functions are
structurally recursive total functions, mirroring the fact that the Python
regex substitutions never raise). -/
theorem conversion_core_total (s : String) :
    (∃ t, preprocess_text s = t) ∧ (∃ t, generate_txt s = t) ∧
    (∃ t, generate_md s = t) ∧ (∃ t, generate_rst s = t) ∧
    (∃ t, generate_latex_doc s = t) ∧ (∃ t, generate_full_html s = t) :=
  ⟨⟨_, rfl⟩, ⟨_, rfl⟩, ⟨_, rfl⟩, ⟨_, rfl⟩, ⟨_, rfl⟩, ⟨_, rfl⟩⟩

/-- C10: on any non-empty input containing no backslash, `preprocess_text`
is the identity: each of its substitution patterns requires a backslash
(`\[`, `\(`, `\begin{...}`), so no rule matches. -/
theorem preprocess_no_backslash_id (s : String) (h1 : s ≠ "") (h2 : '\\' ∉ s.data) :
    preprocess_text s = s := by
  unfold preprocess_text
  rw [if_neg (by simp [h1])]
  rw [subDisplayF_eq_self s.data (hasSeq2_eq_false_of_not_mem '\\' '[' s.data h2) s.data.length]
  rw [subInlineF_eq_self s.data (hasSeq2_eq_false_of_not_mem '\\' '(' s.data h2) s.data.length]
  rw [foldl_subEnv_eq_self environments s.data h2]

/-- C10 (witness): the theorem applied to a document whose math is already
in dollar form. -/
theorem preprocess_no_backslash_id_witness :
    preprocess_text "hello $x$ and $$y^2$$" = "hello $x$ and $$y^2$$" :=
  preprocess_no_backslash_id "hello $x$ and $$y^2$$" (by decide) (by decide)
